import Mathlib

/-!
# Verification of the crop-color-extractor pipeline

A shallow embedding of the three extraction strategies in
`extract_crop_colors.py` (plain), `extract_crop_colors_improved.py`
(filtered) and `extract_crop_colors_hsv.py` (HSV), together with proofs
about the pixel filters, the color-space transform, the cluster scorer
and selector, the cache store, and the batch driver.

Numeric conventions: the Python sources compute with IEEE floats; the
embedding uses exact rationals (`ℚ`) for the pixel/score arithmetic and
real numbers (`ℝ`) for the trigonometric circular-mean computation.
Machine pixel channels are `ℕ` values in `[0, 255]`.
-/

namespace CropColors

/-- An 8-bit RGB pixel: one row of the flattened pixel array
(`pixels = arr.reshape(-1, 3)`). -/
abbrev RGB : Type := ℕ × ℕ × ℕ

/-- A scaled HSV row as built by `rgb_to_hsv_array`:
hue in `[0, 360)`, saturation and value in `[0, 100]`. -/
abbrev HSV : Type := ℚ × ℚ × ℚ

/-- `colorsys.rgb_to_hsv` on `[0,1]`-scaled channels, translated clause by
clause from the CPython standard library (exact rationals in place of
floats).  Returns `(h, s, v)` with `h ∈ [0,1)` and `s, v ∈ [0,1]`. -/
def rgb_to_hsv (r g b : ℚ) : ℚ × ℚ × ℚ :=
  let maxc := max r (max g b)
  let minc := min r (min g b)
  let rangec := maxc - minc
  let v := maxc
  if minc = maxc then (0, 0, v)
  else
    let s := rangec / maxc
    let rc := (maxc - r) / rangec
    let gc := (maxc - g) / rangec
    let bc := (maxc - b) / rangec
    let h := if r = maxc then bc - gc
             else if g = maxc then 2 + rc - bc
             else 4 + gc - rc
    (Int.fract (h / 6), s, v)

/-- Python `round()`: round half to even, as applied by
`int(round(c))` to each centroid channel. -/
def pyRound (q : ℚ) : ℤ :=
  let f := ⌊q⌋
  let r := q - (f : ℚ)
  if r < 1 / 2 then f
  else if 1 / 2 < r then f + 1
  else if f % 2 = 0 then f else f + 1

/-- `is_extreme_color(r, g, b, threshold=20)` from
`extract_crop_colors_improved.py` lines 66-74 (identical in
`extract_crop_colors_hsv.py` lines 73-79): a pixel is extreme when all
three channels are below 20 (near-black) or all above 255-20 = 235
(near-white). -/
def is_extreme_color (r g b : ℕ) : Bool :=
  if r < 20 ∧ g < 20 ∧ b < 20 then true
  else if 235 < r ∧ 235 < g ∧ 235 < b then true
  else false

/-- The membership test of the extreme-luminance filter loop
(`if not is_extreme_color(r, g, b)`). -/
def keepPixel (p : RGB) : Bool := ! is_extreme_color p.1 p.2.1 p.2.2

/-- The extreme-luminance filter with its fallback, lines 88-99 of
`extract_crop_colors_improved.py` (identical in the HSV script lines
88-98): keep the non-extreme pixels unless fewer than 10% of the input
survive, in which case the original sample is kept.  The float test
`len(filtered) < len(pixels) * 0.1` is rendered exactly as
`10 * |filtered| < |pixels|`. -/
def extremeFilterStage (pixels : List RGB) : List RGB :=
  let f := pixels.filter keepPixel
  if 10 * f.length < pixels.length then pixels else f

/-- One row of `rgb_to_hsv_array` (`extract_crop_colors_hsv.py` lines
59-66): channels scaled to `[0,1]`, converted by `colorsys.rgb_to_hsv`,
then rescaled to `H ∈ [0,360)`, `S, V ∈ [0,100]`. -/
def rgbToHsvScaled (p : RGB) : HSV :=
  let hsv := rgb_to_hsv ((p.1 : ℚ) / 255) ((p.2.1 : ℚ) / 255) ((p.2.2 : ℚ) / 255)
  (hsv.1 * 360, hsv.2.1 * 100, hsv.2.2 * 100)

/-- The per-pixel reading of the low-saturation mask
`hsv_pixels[:, 1] > 15`: a pixel is retained exactly when the
saturation of its HSV conversion strictly exceeds 15. -/
def satKeep (p : RGB) : Bool := decide (15 < (rgbToHsvScaled p).2.1)

/-- The low-saturation mask stage, `extract_crop_colors_hsv.py` lines
100-107: convert the filtered pixels to HSV, build the boolean mask
`hsv_pixels[:, 1] > 15`, and keep the masked rows of BOTH arrays exactly
when the mask retains strictly more than 10% of the rows
(`high_saturation_mask.sum() > len(hsv_pixels) * 0.1`, rendered exactly
as `10 * |kept| > |hsv|`).  Indexing the two equal-length arrays by one
mask is modelled by filtering their zip on the HSV component. -/
def satMaskStage (filtered : List RGB) : List RGB × List HSV :=
  let hsv_pixels := filtered.map rgbToHsvScaled
  let pairs := filtered.zip hsv_pixels
  let kept := pairs.filter (fun q => decide (15 < q.2.2.1))
  if 10 * kept.length > hsv_pixels.length then
    (kept.map Prod.fst, kept.map Prod.snd)
  else (filtered, hsv_pixels)

/-- Lines 88-112 of `extract_crop_colors_hsv.py`: extreme-luminance
filter, HSV conversion, low-saturation mask, and the empty-sample
fallback that resets both arrays to the original pixels. Returns the
final `(filtered_pixels, hsv_pixels)` pair handed to clustering. -/
def hsvPrep (pixels : List RGB) : List RGB × List HSV :=
  let filtered := extremeFilterStage pixels
  let fh := satMaskStage filtered
  if fh.2.length = 0 then (pixels, pixels.map rgbToHsvScaled) else fh

/-- `n_clusters` actually passed to `KMeans` by the plain strategy
(`extract_crop_colors.py` line 58): the configured `k = 4`, with no
adjustment for the sample. -/
def nClustersPlain (_pixels : List RGB) : ℕ := 4

/-- `n_clusters` passed by the filtered strategy
(`extract_crop_colors_improved.py` line 102):
`min(k, len(filtered_pixels))` with configured `k = 5`, where
`filtered_pixels` is the post-extreme-filter sample (row count, with
duplicates). -/
def nClustersImproved (pixels : List RGB) : ℕ :=
  min 5 (extremeFilterStage pixels).length

/-- `n_clusters` passed by the HSV strategy
(`extract_crop_colors_hsv.py` line 125): `min(k, len(hsv_pixels))` with
configured `k = 5`, where `hsv_pixels` is the fully prepared sample. -/
def nClustersHsv (pixels : List RGB) : ℕ :=
  min 5 ((hsvPrep pixels).2).length

/-- The number of distinct feature vectors in a sample, as the claimed
`distinct_sample_count` reads (this is the claim's notion; the source
never computes it). -/
def distinctCount (pixels : List RGB) : ℕ := pixels.dedup.length

/-- A cluster as seen by the plain and filtered scorers: the k-means
centroid (three rational coordinates) and the member count from
`np.unique(labels, return_counts=True)`. -/
structure RGBCluster where
  c1 : ℚ
  c2 : ℚ
  c3 : ℚ
  count : ℕ
deriving DecidableEq

/-- `r, g, b = [int(round(c)) for c in color]`: the representative RGB of
a centroid. -/
def clusterRep (c : RGBCluster) : ℤ × ℤ × ℤ :=
  (pyRound c.c1, pyRound c.c2, pyRound c.c3)

/-- `get_color_saturation(r, g, b)` applied to the representative:
the colorsys saturation of the rounded centroid, on a 0-1 scale. -/
def repSaturation (c : RGBCluster) : ℚ :=
  (rgb_to_hsv (((clusterRep c).1 : ℚ) / 255)
    (((clusterRep c).2.1 : ℚ) / 255) (((clusterRep c).2.2 : ℚ) / 255)).2.1

/-- The plain strategy scores a cluster by its member count alone
(`counts.argmax()`, `extract_crop_colors.py` line 62). -/
def plainScore (c : RGBCluster) : ℚ := c.count

/-- `score = count * (1 + saturation * 2)` from
`extract_crop_colors_improved.py` line 118. -/
def filteredScore (c : RGBCluster) : ℚ :=
  (c.count : ℚ) * (1 + repSaturation c * 2)

/-- A cluster as seen by the HSV scorer: the HSV rows of its members
(`cluster_hsv = hsv_pixels[labels == label]`). -/
structure HSVCluster where
  members : List HSV
deriving DecidableEq

/-- The member count of an HSV cluster (the `count` from `np.unique`). -/
def hsvCount (c : HSVCluster) : ℕ := c.members.length

/-- `avg_s = np.mean(cluster_hsv[:, 1])`: arithmetic mean saturation of
the cluster members, on the 0-100 scale. -/
def hsvMeanSat (c : HSVCluster) : ℚ :=
  ((c.members.map (fun m => m.2.1)).sum) / (c.members.length : ℚ)

/-- `score = count * (1 + avg_s / 50)` from
`extract_crop_colors_hsv.py` line 149. -/
def hsvScore (c : HSVCluster) : ℚ :=
  (hsvCount c : ℚ) * (1 + hsvMeanSat c / 50)

/-- Python `max(cluster_info, key=...)` (and equally `np.argmax` over the
counts array): scan left to right, replacing the current best only on a
strictly larger score, so the first maximal element wins.  Empty input
(which `max` would reject with an exception) yields `none`. -/
def pythonMax {α : Type} (score : α → ℚ) : List α → Option α
  | [] => none
  | x :: xs => some (xs.foldl (fun acc y => if score acc < score y then y else acc) x)

/-- Cluster selection of the plain strategy (`counts.argmax()`). -/
def selectPlain : List RGBCluster → Option RGBCluster := pythonMax plainScore

/-- Cluster selection of the filtered strategy
(`max(cluster_info, key=lambda x: x['score'])`). -/
def selectFiltered : List RGBCluster → Option RGBCluster := pythonMax filteredScore

/-- Cluster selection of the HSV strategy
(`max(cluster_info, key=lambda x: x['score'])`). -/
def selectHsv : List HSVCluster → Option HSVCluster := pythonMax hsvScore

/-- The specified selection discipline: the winner's score bounds every
cluster's score, and every cluster enumerated before the winner scores
strictly lower (maximum score, ties broken by first occurrence). -/
def ArgmaxFirst {α : Type} (score : α → ℚ) (cs : List α) (m : α) : Prop :=
  (∀ d ∈ cs, score d ≤ score m) ∧
    ∃ l r, cs = l ++ m :: r ∧ ∀ d ∈ l, score d < score m

/-- `np.ndarray[labels == lab]` for two parallel lists: the elements of
`xs` at the positions where `labels` holds `lab`. -/
def clusterSelect {α : Type} (labels : List ℕ) (xs : List α) (lab : ℕ) : List α :=
  ((labels.zip xs).filter (fun q => q.1 == lab)).map Prod.snd

/-! ## Image loaders (alpha handling) -/

/-- An RGBA pixel of a decoded image that carries an alpha channel. -/
abbrev RGBA : Type := ℕ × ℕ × ℕ × ℕ

/-- PIL `img.convert("RGB")` on an RGBA image discards the alpha band and
keeps the stored RGB channels unchanged (no compositing).  This is the
alpha handling of the plain loader, `extract_crop_colors.py` line 46. -/
def dropAlpha (p : RGBA) : RGB := (p.1, p.2.1, p.2.2.1)

/-- The plain strategy's loader applied to an RGBA image: a bare
`convert("RGB")`, pixel by pixel. -/
def plainLoadRGBA (px : List RGBA) : List RGB := px.map dropAlpha

/-- One channel of PIL `background.paste(img, mask=alpha)` over an opaque
white background: the integer alpha-weighted blend
`(a·src + (255−a)·255) / 255` rounded to nearest (modelled PIL
fixed-point blend semantics; the exact rounding is irrelevant to the
claims, which evaluate it at `a = 0` and `a = 255`). -/
def blendOverWhite (c a : ℕ) : ℕ := (a * c + (255 - a) * 255 + 127) / 255

/-- One pixel of the filtered/HSV loaders' RGBA branch
(`extract_crop_colors_improved.py` lines 51-56, identical in the HSV
script lines 50-53): composite over white using the alpha channel as
mask. -/
def compositeOverWhite (p : RGBA) : RGB :=
  (blendOverWhite p.1 p.2.2.2, blendOverWhite p.2.1 p.2.2.2,
    blendOverWhite p.2.2.1 p.2.2.2)

/-- The filtered and HSV strategies' loader applied to an RGBA image. -/
def improvedLoadRGBA (px : List RGBA) : List RGB := px.map compositeOverWhite

/-! ## Error propagation in the batch driver -/

/-- The failure taxonomy.  `cacheStoreError` stands for an `OSError`
raised by `os.makedirs` in `ensure_cache` or by `open(path, "wb")` while
writing a cache file; the other three are the spec's per-image
failures. -/
inductive FailureKind : Type where
  | networkError : FailureKind
  | decodeError : FailureKind
  | clusteringDegenerate : FailureKind
  | cacheStoreError : FailureKind
deriving DecidableEq

/-- The `try/except Exception` body of the per-URL loop
(`extract_crop_colors.py` lines 74-79): both `download_image` (which
contains `ensure_cache` and the cache-file write) and `dominant_color`
run inside the `try`, so EVERY exception kind raised there is caught and
converted to an absent result (`url_to_color[url] = None`). -/
def catchPerUrl (r : Except FailureKind String) : Option String :=
  match r with
  | .ok c => some c
  | .error _ => none

/-- The per-URL loop of `main`: one `(url, result)` entry per unique URL,
each wrapped in the catch-all handler.  `outcome u` is the result of
running `download_image(u)` followed by `dominant_color` — `ok` with the
hex string, or `error` with the exception kind it raises. -/
def runBatchLoop (outcome : String → Except FailureKind String)
    (urls : List String) : List (String × Option String) :=
  urls.map (fun u => (u, catchPerUrl (outcome u)))

/-! ## Cache store -/

/-- First-match association lookup: models both a Python `dict` lookup
and the `os.path.exists` + read of a cache file named by the key. -/
def alookup {β : Type} (m : List (String × β)) (u : String) : Option β :=
  match m with
  | [] => none
  | (k, v) :: t => if u = k then some v else alookup t u

/-- The cache directory constant `CACHE_DIR = ".image_cache"`. -/
def CACHE_DIR : String := ".image_cache"

/-- `filename_for_url` (`extract_crop_colors.py` lines 30-32):
`os.path.join(CACHE_DIR, h + ".img")` where `h` is
`hashlib.sha256(url.encode("utf-8")).hexdigest()`.  The SHA-256 hex
digest is an external-library primitive, abstracted here as the
parameter `hashHex`. -/
def filename_for_url (hashHex : String → String) (url : String) : String :=
  CACHE_DIR ++ "/" ++ hashHex url ++ ".img"

/-- The observable outcome of one `download_image` call: the cache
contents afterwards (filename ↦ stored bytes), the bytes the image is
decoded from, and how many network requests were made. -/
structure DLOutcome where
  cache : List (String × List ℕ)
  bytes : List ℕ
  netCalls : ℕ
deriving DecidableEq

/-- `download_image` (`extract_crop_colors.py` lines 34-47), cache and
network behavior: if the cache file exists it is read as-is with no
network call; otherwise one `requests.get` fetches the body, which is
written to the cache file and then read back.  `net url` is the response
body for `url`. -/
def download_image (hashHex : String → String) (net : String → List ℕ)
    (cache : List (String × List ℕ)) (url : String) : DLOutcome :=
  let path := filename_for_url hashHex url
  match alookup cache path with
  | some b => ⟨cache, b, 0⟩
  | none => ⟨(path, net url) :: cache, net url, 1⟩

/-! ## Batch schema -/

/-- One input row: a `crop_name` and an optional `image_url`
(`none` models a missing/NaN URL in the CSV). -/
structure Row where
  crop : String
  url : Option String
deriving DecidableEq

/-- One output row: the input columns plus the added `dominant_color`
(`none` models the empty cell written for NaN). -/
structure RowOut where
  crop : String
  url : Option String
  color : Option String
deriving DecidableEq

/-- `pandas.Series.unique` on the non-null URLs: de-duplicate keeping
the first occurrence of each value, in order. -/
def uniqueFirst (l : List String) : List String :=
  l.foldl (fun acc x => if x ∈ acc then acc else acc ++ [x]) []

/-- `df["image_url"].dropna().unique()`. -/
def uniqueUrls (rows : List Row) : List String :=
  uniqueFirst (rows.filterMap Row.url)

/-- The `url_to_color` dict built by the per-URL loop: every unique URL
maps to `ext u`, the extraction result for `u` (`none` when the URL
failed and the handler stored `None`). -/
def urlColorMap (ext : String → Option String) (rows : List Row) :
    List (String × Option String) :=
  (uniqueUrls rows).map (fun u => (u, ext u))

/-- `df["dominant_color"] = df["image_url"].map(url_to_color)` followed
by the CSV write (`extract_crop_colors.py` lines 67-83): every input row
reappears with its columns unchanged and one added color cell — the dict
value for its URL, or empty for a missing URL. -/
def mainBatch (ext : String → Option String) (rows : List Row) : List RowOut :=
  rows.map (fun r =>
    ⟨r.crop, r.url, (r.url.bind (fun u => (alookup (urlColorMap ext rows) u).join))⟩)

/-! ## Circular mean hue (HSV representative) -/

/-- `np.arctan2 y x`, modelled as the argument of the complex number
`x + y·i` (range `(-π, π]`). -/
noncomputable def atan2 (y x : ℝ) : ℝ := Complex.arg ⟨x, y⟩

/-- `np.radians`: degrees to radians. -/
noncomputable def radiansOf (d : ℝ) : ℝ := d * (Real.pi / 180)

/-- `np.degrees`: radians to degrees. -/
noncomputable def degreesOf (x : ℝ) : ℝ := x * 180 / Real.pi

/-- Python float `x % 360` (sign of the divisor):
`x - 360·⌊x/360⌋`. -/
noncomputable def fmod360 (x : ℝ) : ℝ := x - 360 * (⌊x / 360⌋ : ℤ)

/-- The circular mean hue of a cluster, `extract_crop_colors_hsv.py`
lines 138-141: `degrees(arctan2(mean(sin(radians h)), mean(cos(radians
h)))) % 360`. -/
noncomputable def circularMeanHue (hs : List ℝ) : ℝ :=
  let meanSin := ((hs.map (fun h => Real.sin (radiansOf h))).sum) / (hs.length : ℝ)
  let meanCos := ((hs.map (fun h => Real.cos (radiansOf h))).sum) / (hs.length : ℝ)
  fmod360 (degreesOf (atan2 meanSin meanCos))

/-! ## Concrete samples used by the boundary and counterexample
theorems -/

/-- Ten pixels, nine achromatic grays and one vivid red: exactly 10% of
the sample passes the low-saturation mask. -/
def graySample : List RGB :=
  [(100, 100, 100), (100, 100, 100), (100, 100, 100), (100, 100, 100),
   (100, 100, 100), (100, 100, 100), (100, 100, 100), (100, 100, 100),
   (100, 100, 100), (250, 2, 2)]

/-- Ten pixels, nine vivid reds and one pixel of saturation exactly 15
(`(200,170,170)`: `(200-170)/200 = 0.15`). -/
def redSample : List RGB :=
  [(250, 2, 2), (250, 2, 2), (250, 2, 2), (250, 2, 2), (250, 2, 2),
   (250, 2, 2), (250, 2, 2), (250, 2, 2), (250, 2, 2), (200, 170, 170)]

/-- Ten pixels, nine near-black and one mid gray: exactly 10% of the
sample passes the extreme-luminance filter. -/
def blackSample : List RGB :=
  [(0, 0, 0), (0, 0, 0), (0, 0, 0), (0, 0, 0), (0, 0, 0), (0, 0, 0),
   (0, 0, 0), (0, 0, 0), (0, 0, 0), (100, 100, 100)]

/-! # Helper lemmas -/

/-- Python `max` (and `np.argmax`) selects the first element attaining
the maximal score: correctness of the left fold. -/
theorem foldl_pythonMax_argmaxFirst {α : Type} (score : α → ℚ) :
    ∀ (xs : List α) (x : α),
      ArgmaxFirst score (x :: xs)
        (xs.foldl (fun acc y => if score acc < score y then y else acc) x)
  | [], x => by
    refine ⟨?_, [], [], rfl, by intro d hd; simp at hd⟩
    intro d hd
    simp only [List.foldl_nil]
    rcases List.mem_singleton.mp hd with rfl
    exact le_refl _
  | y :: ys, x => by
    have ih := foldl_pythonMax_argmaxFirst score ys
      (if score x < score y then y else x)
    rw [List.foldl_cons]
    by_cases h : score x < score y
    · rw [if_pos h] at ih ⊢
      obtain ⟨hb, l, r, hsplit, hlt⟩ := ih
      have hym : score y ≤ score (ys.foldl
          (fun acc y => if score acc < score y then y else acc) y) :=
        hb y (List.mem_cons_self _ _)
      refine ⟨?_, x :: l, r, by rw [List.cons_append, ← hsplit], ?_⟩
      · intro d hd
        rcases List.mem_cons.mp hd with rfl | hd'
        · exact le_of_lt (lt_of_lt_of_le h hym)
        · exact hb d hd'
      · intro d hd
        rcases List.mem_cons.mp hd with rfl | hd'
        · exact lt_of_lt_of_le h hym
        · exact hlt d hd'
    · rw [if_neg h] at ih ⊢
      have hyx : score y ≤ score x := le_of_not_lt h
      obtain ⟨hb, l, r, hsplit, hlt⟩ := ih
      have hxm : score x ≤ score (ys.foldl
          (fun acc y => if score acc < score y then y else acc) x) :=
        hb x (List.mem_cons_self _ _)
      refine ⟨?_, ?_⟩
      · intro d hd
        rcases List.mem_cons.mp hd with rfl | hd'
        · exact hxm
        rcases List.mem_cons.mp hd' with rfl | hd''
        · exact le_trans hyx hxm
        · exact hb d (List.mem_cons_of_mem _ hd'')
      · cases l with
        | nil =>
          rw [List.nil_append] at hsplit
          injection hsplit with hx hr
          exact ⟨[], y :: ys, by rw [List.nil_append, ← hx],
            by intro d hd; simp at hd⟩
        | cons a l₁ =>
          rw [List.cons_append] at hsplit
          injection hsplit with hx hr
          subst hx
          have hxlt := hlt x (List.mem_cons_self _ _)
          refine ⟨x :: y :: l₁, r,
            by rw [List.cons_append, List.cons_append, ← hr], ?_⟩
          intro d hd
          rcases List.mem_cons.mp hd with rfl | hd'
          · exact hxlt
          rcases List.mem_cons.mp hd' with rfl | hd''
          · exact lt_of_le_of_lt hyx hxlt
          · exact hlt d (List.mem_cons_of_mem _ hd'')

/-- Any cluster returned by `pythonMax` has the maximal score and is the
first element attaining it. -/
theorem pythonMax_argmaxFirst {α : Type} (score : α → ℚ) (cs : List α) (m : α)
    (h : pythonMax score cs = some m) : ArgmaxFirst score cs m := by
  cases cs with
  | nil => exact absurd h (by simp [pythonMax])
  | cons x xs =>
    have hm : xs.foldl (fun acc y => if score acc < score y then y else acc) x = m := by
      simpa [pythonMax] using h
    exact hm ▸ foldl_pythonMax_argmaxFirst score xs x

/-- Zipping a list with its own image is mapping into pairs. -/
theorem zip_map_self {α β : Type} (g : α → β) :
    ∀ l : List α, l.zip (l.map g) = l.map (fun a => (a, g a))
  | [] => rfl
  | a :: t => by
    simp only [List.map_cons, List.zip_cons_cons, zip_map_self g t]

/-- Filtering a mapped list is mapping the filtered list. -/
theorem filter_map_comm {α β : Type} (e : α → β) (p : β → Bool) :
    ∀ l : List α, (l.map e).filter p = (l.filter (fun a => p (e a))).map e
  | [] => rfl
  | a :: t => by
    simp only [List.map_cons, List.filter_cons]
    by_cases h : p (e a) <;> simp [h, filter_map_comm e p t]

/-- Projecting the first components out of a self-pairing map gives the
original list back. -/
theorem map_pair_fst {α β : Type} (g : α → β) (l : List α) :
    (l.map (fun a => (a, g a))).map Prod.fst = l := by
  induction l with
  | nil => rfl
  | cons a t ih => simp only [List.map_cons, ih]

/-- Projecting the second components out of a self-pairing map gives the
mapped list. -/
theorem map_pair_snd {α β : Type} (g : α → β) (l : List α) :
    (l.map (fun a => (a, g a))).map Prod.snd = l.map g := by
  induction l with
  | nil => rfl
  | cons a t ih => simp only [List.map_cons, ih]

/-- The low-saturation mask's kept pairs are the `satKeep`-filtered
pixels paired with their conversions. -/
theorem satMask_kept_eq (f : List RGB) :
    (f.zip (f.map rgbToHsvScaled)).filter (fun q => decide (15 < q.2.2.1)) =
      (f.filter satKeep).map (fun a => (a, rgbToHsvScaled a)) := by
  rw [zip_map_self rgbToHsvScaled f,
    filter_map_comm (fun a => (a, rgbToHsvScaled a))
      (fun q => decide (15 < q.2.2.1)) f]
  rfl

/-- The two outputs of the low-saturation stage stay in lockstep: the
HSV side is the conversion of the RGB side. -/
theorem satMaskStage_snd (f : List RGB) :
    (satMaskStage f).2 = (satMaskStage f).1.map rgbToHsvScaled := by
  simp only [satMaskStage, satMask_kept_eq]
  split
  · rw [map_pair_fst, map_pair_snd]
  · rfl

/-- Branch equation of the low-saturation stage: the mask result is
kept exactly when strictly more than 10% of the rows survive. -/
theorem satMaskStage_keep (f : List RGB)
    (h : f.length < 10 * (f.filter satKeep).length) :
    satMaskStage f = (f.filter satKeep, (f.filter satKeep).map rgbToHsvScaled) := by
  have hc : 10 * ((f.filter satKeep).map
      (fun a => (a, rgbToHsvScaled a))).length > (f.map rgbToHsvScaled).length := by
    simpa using h
  simp only [satMaskStage, satMask_kept_eq]
  rw [if_pos hc, map_pair_fst, map_pair_snd]

/-- At or below the 10% boundary the low-saturation stage keeps the
original pair unchanged. -/
theorem satMaskStage_fallback (f : List RGB)
    (h : 10 * (f.filter satKeep).length ≤ f.length) :
    satMaskStage f = (f, f.map rgbToHsvScaled) := by
  have hc : ¬ (10 * ((f.filter satKeep).map
      (fun a => (a, rgbToHsvScaled a))).length > (f.map rgbToHsvScaled).length) := by
    simpa using h
  simp only [satMaskStage, satMask_kept_eq]
  rw [if_neg hc]

/-- The final prepared pair of the HSV pipeline stays in lockstep. -/
theorem hsvPrep_snd (px : List RGB) :
    (hsvPrep px).2 = (hsvPrep px).1.map rgbToHsvScaled := by
  simp only [hsvPrep]
  split
  · rfl
  · exact satMaskStage_snd (extremeFilterStage px)

/-- `xs[labels == lab]` commutes with mapping `xs`. -/
theorem clusterSelect_map {α β : Type} (g : α → β) (lab : ℕ) :
    ∀ (labels : List ℕ) (xs : List α),
      clusterSelect labels (xs.map g) lab = (clusterSelect labels xs lab).map g
  | [], xs => by simp [clusterSelect]
  | _ :: _, [] => by simp [clusterSelect]
  | a :: labels, x :: xs => by
    have ih := clusterSelect_map g lab labels xs
    unfold clusterSelect at ih ⊢
    simp only [List.map_cons, List.zip_cons_cons, List.filter_cons]
    by_cases h : (a == lab) = true
    · simp [h, ih]
    · simp [h, ih]

/-- A non-empty sample survives the extreme-luminance stage non-empty
(the fallback guarantees it). -/
theorem extremeFilterStage_ne_nil (px : List RGB) (h : px ≠ []) :
    extremeFilterStage px ≠ [] := by
  simp only [extremeFilterStage]
  split
  · exact h
  · rename_i hge
    have hpos : 0 < px.length := List.length_pos.mpr h
    have hf : 0 < (px.filter keepPixel).length := by omega
    exact List.length_pos.mp hf

/-- A non-empty sample reaches clustering with a non-empty HSV array. -/
theorem hsvPrep_snd_ne_nil (px : List RGB) (h : px ≠ []) :
    (hsvPrep px).2 ≠ [] := by
  simp only [hsvPrep]
  split
  · rename_i hlen
    simp only [ne_eq, List.map_eq_nil_iff]
    exact h
  · rename_i hlen
    intro hnil
    exact hlen (by rw [hnil]; rfl)

/-- Membership in the first-occurrence de-duplication. -/
theorem mem_uniqueFirst_foldl (a : String) :
    ∀ (l : List String) (acc : List String),
      (a ∈ l.foldl (fun acc x => if x ∈ acc then acc else acc ++ [x]) acc ↔
        a ∈ acc ∨ a ∈ l)
  | [], acc => by simp
  | x :: t, acc => by
    rw [List.foldl_cons, mem_uniqueFirst_foldl a t]
    by_cases hx : x ∈ acc
    · rw [if_pos hx]
      simp only [List.mem_cons]
      constructor
      · rintro (h | h)
        · exact Or.inl h
        · exact Or.inr (Or.inr h)
      · rintro (h | rfl | h)
        · exact Or.inl h
        · exact Or.inl hx
        · exact Or.inr h
    · rw [if_neg hx]
      simp only [List.mem_append, List.mem_cons, List.not_mem_nil, or_false]
      constructor
      · rintro ((h | rfl) | h)
        · exact Or.inl h
        · exact Or.inr (Or.inl rfl)
        · exact Or.inr (Or.inr h)
      · rintro (h | rfl | h)
        · exact Or.inl (Or.inl h)
        · exact Or.inl (Or.inr rfl)
        · exact Or.inr h

/-- `uniqueFirst` keeps exactly the values of the input. -/
theorem mem_uniqueFirst (a : String) (l : List String) :
    a ∈ uniqueFirst l ↔ a ∈ l := by
  unfold uniqueFirst
  rw [mem_uniqueFirst_foldl]
  simp

/-- Looking up a key in a map whose entries pair each key with its
image finds that image exactly for present keys. -/
theorem alookup_map_self (ext : String → Option String) (v : String) :
    ∀ l : List String,
      alookup (l.map (fun u => (u, ext u))) v =
        if v ∈ l then some (ext v) else none
  | [] => by simp [alookup]
  | u :: t => by
    simp only [List.map_cons, alookup, List.mem_cons]
    by_cases h : v = u
    · subst h
      simp
    · rw [if_neg h, alookup_map_self ext v t]
      by_cases ht : v ∈ t
      · simp [ht, h]
      · simp [ht, h]

/-- One row of `mainBatch`: for a row of the input table, the dict
lookup resolves to the extraction result of its URL. -/
theorem mainBatch_row (ext : String → Option String) (rows : List Row)
    (r : Row) (hr : r ∈ rows) :
    (⟨r.crop, r.url,
        r.url.bind (fun u => (alookup (urlColorMap ext rows) u).join)⟩ : RowOut) =
      ⟨r.crop, r.url, r.url.bind ext⟩ := by
  cases hu : r.url with
  | none => simp
  | some u =>
    have hmem : u ∈ uniqueUrls rows := by
      unfold uniqueUrls
      rw [mem_uniqueFirst]
      exact List.mem_filterMap.mpr ⟨r, hr, hu⟩
    have hl : alookup (urlColorMap ext rows) u = some (ext u) := by
      unfold urlColorMap
      rw [alookup_map_self ext u (uniqueUrls rows), if_pos hmem]
    simp [hl]

/-- The float modulo `% 360` is never negative. -/
theorem fmod360_nonneg (x : ℝ) : 0 ≤ fmod360 x := by
  have h1 : ((⌊x / 360⌋ : ℤ) : ℝ) ≤ x / 360 := Int.floor_le _
  have h2 : (360 : ℝ) * (x / 360) = x := by
    field_simp
  have h3 : (360 : ℝ) * ((⌊x / 360⌋ : ℤ) : ℝ) ≤ (360 : ℝ) * (x / 360) :=
    mul_le_mul_of_nonneg_left h1 (by norm_num)
  unfold fmod360
  linarith

/-- The float modulo `% 360` is strictly below 360. -/
theorem fmod360_lt (x : ℝ) : fmod360 x < 360 := by
  have h1 : x / 360 < ((⌊x / 360⌋ : ℤ) : ℝ) + 1 := Int.lt_floor_add_one _
  have h2 : (360 : ℝ) * (x / 360) = x := by
    field_simp
  have h3 : (360 : ℝ) * (x / 360) < (360 : ℝ) * (((⌊x / 360⌋ : ℤ) : ℝ) + 1) :=
    mul_lt_mul_of_pos_left h1 (by norm_num)
  unfold fmod360
  linarith

/-- `arctan2` of a zero ordinate and a non-negative abscissa is zero. -/
theorem atan2_zero_of_nonneg (x : ℝ) (hx : 0 ≤ x) : atan2 0 x = 0 := by
  unfold atan2
  have hc : (⟨x, 0⟩ : ℂ) = ((x : ℝ) : ℂ) := by
    apply Complex.ext <;> simp
  rw [hc]
  exact Complex.arg_ofReal_of_nonneg hx

/-- `sin` at the radian image of `358°` is the negative of `sin` at the
radian image of `2°`. -/
theorem sin_radians_358 : Real.sin (radiansOf 358) = - Real.sin (radiansOf 2) := by
  have h : radiansOf (358 : ℝ) = 2 * Real.pi - radiansOf 2 := by
    unfold radiansOf
    ring
  rw [h, Real.sin_sub, Real.sin_two_pi, Real.cos_two_pi]
  ring

/-- `cos` at the radian image of `358°` equals `cos` at the radian image
of `2°`. -/
theorem cos_radians_358 : Real.cos (radiansOf 358) = Real.cos (radiansOf 2) := by
  have h : radiansOf (358 : ℝ) = 2 * Real.pi - radiansOf 2 := by
    unfold radiansOf
    ring
  rw [h, Real.cos_sub, Real.sin_two_pi, Real.cos_two_pi]
  ring

/-- `cos 2°` is positive. -/
theorem cos_radians_2_pos : 0 < Real.cos (radiansOf 2) := by
  have hpi := Real.pi_pos
  apply Real.cos_pos_of_mem_Ioo
  constructor
  · unfold radiansOf
    nlinarith
  · unfold radiansOf
    nlinarith

/-! ## Concrete evaluations (rational arithmetic via `norm_num`) -/

/-- The saturation of an achromatic gray pixel is 0. -/
theorem sat_gray0 : (rgbToHsvScaled (100, 100, 100)).2.1 = 0 := by
  norm_num [rgbToHsvScaled, rgb_to_hsv, max_def, min_def]

/-- A gray pixel fails the low-saturation mask. -/
theorem satKeep_gray : satKeep (100, 100, 100) = false := by
  simp only [satKeep, sat_gray0]
  norm_num

/-- The saturation of the vivid red pixel `(250,2,2)` is `99.2`. -/
theorem sat_red : (rgbToHsvScaled (250, 2, 2)).2.1 = 496 / 5 := by
  norm_num [rgbToHsvScaled, rgb_to_hsv, max_def, min_def]

/-- The vivid red pixel passes the low-saturation mask. -/
theorem satKeep_red : satKeep (250, 2, 2) = true := by
  simp only [satKeep, sat_red]
  norm_num

/-- The pixel `(200,170,170)` has saturation exactly 15. -/
theorem sat_p15 : (rgbToHsvScaled (200, 170, 170)).2.1 = 15 := by
  norm_num [rgbToHsvScaled, rgb_to_hsv, max_def, min_def]

/-- The pixel of saturation exactly 15 FAILS the strict mask
`s > 15`. -/
theorem satKeep_p15 : satKeep (200, 170, 170) = false := by
  simp only [satKeep, sat_p15]
  norm_num

/-- The low-saturation filter retains exactly the one vivid pixel of
`graySample` (10% of the input). -/
theorem grayFilter_eq : graySample.filter satKeep = [(250, 2, 2)] := by
  simp [graySample, satKeep_gray, satKeep_red]

/-- The low-saturation filter retains exactly the nine vivid pixels of
`redSample`, dropping the saturation-15 pixel. -/
theorem redFilter_eq :
    redSample.filter satKeep =
      [(250, 2, 2), (250, 2, 2), (250, 2, 2), (250, 2, 2), (250, 2, 2),
       (250, 2, 2), (250, 2, 2), (250, 2, 2), (250, 2, 2)] := by
  simp [redSample, satKeep_red, satKeep_p15]

/-- No pixel of `graySample` is extreme, and 100% pass, so the
extreme-luminance stage keeps the whole sample. -/
theorem extreme_gray : extremeFilterStage graySample = graySample := by decide

/-- No pixel of `redSample` is extreme either. -/
theorem extreme_red : extremeFilterStage redSample = redSample := by decide

/-- At exactly 10% retention the whole HSV preparation keeps the
original, unfiltered arrays. -/
theorem hsvPrep_gray :
    hsvPrep graySample = (graySample, graySample.map rgbToHsvScaled) := by
  have hlen : 10 * (graySample.filter satKeep).length ≤ graySample.length := by
    rw [grayFilter_eq]; decide
  have hne : ¬ ((graySample, graySample.map rgbToHsvScaled).2.length = 0) := by
    simp [graySample]
  simp only [hsvPrep, extreme_gray, satMaskStage_fallback graySample hlen]
  rw [if_neg hne]

/-- On `redSample` (90% retention) the HSV preparation keeps the
filtered pixels, so the saturation-15 pixel is gone. -/
theorem hsvPrep_red1 :
    (hsvPrep redSample).1 =
      [(250, 2, 2), (250, 2, 2), (250, 2, 2), (250, 2, 2), (250, 2, 2),
       (250, 2, 2), (250, 2, 2), (250, 2, 2), (250, 2, 2)] := by
  have hlen : redSample.length < 10 * (redSample.filter satKeep).length := by
    rw [redFilter_eq]; decide
  have hkeep := satMaskStage_keep redSample hlen
  rw [redFilter_eq] at hkeep
  have hne : ¬ (([(250, 2, 2), (250, 2, 2), (250, 2, 2), (250, 2, 2), (250, 2, 2),
        (250, 2, 2), (250, 2, 2), (250, 2, 2), (250, 2, 2)] : List RGB),
      ([(250, 2, 2), (250, 2, 2), (250, 2, 2), (250, 2, 2), (250, 2, 2),
        (250, 2, 2), (250, 2, 2), (250, 2, 2),
        (250, 2, 2)] : List RGB).map rgbToHsvScaled).2.length = 0 := by
    simp
  simp only [hsvPrep, extreme_red, hkeep]
  rw [if_neg hne]

/-- Selection for the plain scorer on a concrete tie: the earlier of the
two count-5 clusters wins. -/
theorem selPlain_eval :
    selectPlain [⟨0, 0, 0, 3⟩, ⟨10, 10, 10, 5⟩, ⟨20, 20, 20, 5⟩] =
      some ⟨10, 10, 10, 5⟩ := by
  norm_num [selectPlain, pythonMax, plainScore]

/-- Selection for the filtered scorer: the vivid count-3 cluster
(score 9) beats the dull count-7 cluster (score 7). -/
theorem selFiltered_eval :
    selectFiltered [⟨100, 100, 100, 7⟩, ⟨200, 0, 0, 3⟩] = some ⟨200, 0, 0, 3⟩ := by
  norm_num [selectFiltered, pythonMax, filteredScore, repSaturation, clusterRep,
    pyRound, rgb_to_hsv, max_def, min_def, Int.floor_ofNat]

/-- Selection for the HSV scorer: the saturated singleton (score 3)
beats the unsaturated one (score 1). -/
theorem selHsv_eval :
    selectHsv [⟨[(0, 0, 50)]⟩, ⟨[(0, 100, 100)]⟩] = some ⟨[(0, 100, 100)]⟩ := by
  norm_num [selectHsv, pythonMax, hsvScore, hsvMeanSat, hsvCount]

/-! # Claim theorems -/

/-- C1: each strategy's selector picks the maximum-score cluster with
ties broken by first occurrence in enumeration order, and the
per-cluster scores are exactly as specified — plain: representative =
centroid rounded to nearest integer RGB, score = member count only;
filtered: score = `count × (1 + 2·saturation)` with the saturation of
the representative RGB on a 0-1 scale; HSV: score =
`count × (1 + saturation/50)` with saturation the arithmetic mean
member saturation on a 0-100 scale. -/
theorem claim_C1_selector :
    (∀ cs m, selectPlain cs = some m → ArgmaxFirst plainScore cs m) ∧
    (∀ cs m, selectFiltered cs = some m → ArgmaxFirst filteredScore cs m) ∧
    (∀ cs m, selectHsv cs = some m → ArgmaxFirst hsvScore cs m) ∧
    (∀ c, plainScore c = (c.count : ℚ)) ∧
    (∀ c, filteredScore c = (c.count : ℚ) * (1 + 2 * repSaturation c)) ∧
    (∀ c, hsvScore c = (hsvCount c : ℚ) * (1 + hsvMeanSat c / 50)) ∧
    (∀ c, clusterRep c = (pyRound c.c1, pyRound c.c2, pyRound c.c3)) := by
  refine ⟨?_, ?_, ?_, fun _ => rfl, ?_, fun _ => rfl, fun _ => rfl⟩
  · exact fun cs m h => pythonMax_argmaxFirst plainScore cs m h
  · exact fun cs m h => pythonMax_argmaxFirst filteredScore cs m h
  · exact fun cs m h => pythonMax_argmaxFirst hsvScore cs m h
  · intro c
    unfold filteredScore
    ring

/-- C1 witness: concrete selections.  In the plain list the two largest
clusters tie at count 5 and the earlier one wins; in the filtered list
the smaller but vivid cluster beats the larger dull one; in the HSV list
the saturated singleton beats the unsaturated one. -/
theorem claim_C1_witness :
    ArgmaxFirst plainScore
      [⟨0, 0, 0, 3⟩, ⟨10, 10, 10, 5⟩, ⟨20, 20, 20, 5⟩] ⟨10, 10, 10, 5⟩ ∧
    ArgmaxFirst filteredScore
      [⟨100, 100, 100, 7⟩, ⟨200, 0, 0, 3⟩] ⟨200, 0, 0, 3⟩ ∧
    ArgmaxFirst hsvScore
      [⟨[(0, 0, 50)]⟩, ⟨[(0, 100, 100)]⟩] ⟨[(0, 100, 100)]⟩ :=
  ⟨claim_C1_selector.1 _ _ selPlain_eval,
   claim_C1_selector.2.1 _ _ selFiltered_eval,
   claim_C1_selector.2.2.1 _ _ selHsv_eval⟩

/-- C2 counterexample: in the plain strategy's loader a fully
transparent pixel keeps its stored RGB — here black — instead of
resolving to pure white, so the compositing claim fails for one of the
three loaders. -/
theorem claim_C2_counterexample :
    plainLoadRGBA [(0, 0, 0, 0)] = [(0, 0, 0)] ∧
    ((0, 0, 0) : RGB) ≠ (255, 255, 255) :=
  ⟨rfl, by decide⟩

/-- C2 amended: the filtered and HSV strategies' loaders composite an
RGBA image over an opaque white background with an alpha-weighted blend
(a fully transparent pixel resolves to pure white, a fully opaque pixel
keeps its color); the plain strategy's loader instead drops the alpha
channel, so a fully transparent pixel resolves to its stored RGB (black
for stored black, never white unless stored white). -/
theorem claim_C2_amended :
    (∀ r g b : ℕ, compositeOverWhite (r, g, b, 0) = (255, 255, 255)) ∧
    (∀ px, improvedLoadRGBA px = px.map compositeOverWhite) ∧
    (∀ c : ℕ, blendOverWhite c 255 = c) ∧
    (∀ c : ℕ, blendOverWhite c 0 = 255) ∧
    (∀ r g b a : ℕ, dropAlpha (r, g, b, a) = (r, g, b)) ∧
    (∀ px, plainLoadRGBA px = px.map dropAlpha) := by
  refine ⟨?_, fun _ => rfl, ?_, ?_, fun _ _ _ _ => rfl, fun _ => rfl⟩
  · intro r g b
    simp [compositeOverWhite, blendOverWhite]
  · intro c
    unfold blendOverWhite
    omega
  · intro c
    unfold blendOverWhite
    omega

/-- C3 counterexample: on `graySample` exactly 10% of the pixels pass
the low-saturation filter, yet the HSV pipeline keeps the ORIGINAL
sample (fallback), not the filtered set; while on `blackSample`, where
exactly 10% pass the extreme-luminance filter, that filter keeps the
FILTERED set — the two filters resolve the 10% boundary differently. -/
theorem claim_C3_counterexample :
    (graySample.filter satKeep).length * 10 = graySample.length ∧
    hsvPrep graySample = (graySample, graySample.map rgbToHsvScaled) ∧
    (graySample.filter satKeep).length = 1 ∧
    graySample.length = 10 ∧
    (blackSample.filter keepPixel).length * 10 = blackSample.length ∧
    extremeFilterStage blackSample = blackSample.filter keepPixel := by
  refine ⟨?_, hsvPrep_gray, ?_, by decide, by decide, by decide⟩
  · rw [grayFilter_eq]; decide
  · rw [grayFilter_eq]; decide

/-- C3 amended: the extreme-luminance filter falls back to the original
set exactly when the retained set is strictly smaller than 10% of the
input (at exactly 10% the filtered set is kept), but the low-saturation
filter keeps the filtered set exactly when the retained set is strictly
larger than 10% (at exactly 10% it falls back to the unfiltered pair) —
the two filters resolve the boundary differently. -/
theorem claim_C3_amended :
    (∀ px : List RGB, 10 * (px.filter keepPixel).length < px.length →
      extremeFilterStage px = px) ∧
    (∀ px : List RGB, px.length ≤ 10 * (px.filter keepPixel).length →
      extremeFilterStage px = px.filter keepPixel) ∧
    (∀ f : List RGB, f.length < 10 * (f.filter satKeep).length →
      satMaskStage f = (f.filter satKeep, (f.filter satKeep).map rgbToHsvScaled)) ∧
    (∀ f : List RGB, 10 * (f.filter satKeep).length ≤ f.length →
      satMaskStage f = (f, f.map rgbToHsvScaled)) := by
  refine ⟨?_, ?_, satMaskStage_keep, satMaskStage_fallback⟩
  · intro px h
    simp only [extremeFilterStage]
    rw [if_pos h]
  · intro px h
    simp only [extremeFilterStage]
    rw [if_neg (by omega)]

/-- C3 witness: the boundary branches applied at the two exact-10%
samples. -/
theorem claim_C3_witness :
    extremeFilterStage blackSample = blackSample.filter keepPixel ∧
    satMaskStage graySample = (graySample, graySample.map rgbToHsvScaled) :=
  ⟨claim_C3_amended.2.1 blackSample (by decide),
   claim_C3_amended.2.2.2 graySample (by rw [grayFilter_eq]; decide)⟩

/-- C4: the per-cluster representative hue is the circular mean — atan2
of the averaged sines and cosines of the member hues, normalized into
[0,360) — and a cluster whose members have hues {2°, 358°} reports mean
hue 0 (i.e. at the 0°/360° wrap point), not the arithmetic mean 180°. -/
theorem claim_C4_circular_mean :
    (∀ hs : List ℝ, 0 ≤ circularMeanHue hs ∧ circularMeanHue hs < 360) ∧
    circularMeanHue [2, 358] = 0 ∧ (0 : ℝ) ≠ 180 := by
  refine ⟨fun hs => ⟨fmod360_nonneg _, fmod360_lt _⟩, ?_, by norm_num⟩
  have e1 : ((([(2 : ℝ), 358].map (fun h => Real.sin (radiansOf h))).sum) /
      (([(2 : ℝ), 358].length : ℝ))) = 0 := by
    simp [sin_radians_358]
  have e2 : ((([(2 : ℝ), 358].map (fun h => Real.cos (radiansOf h))).sum) /
      (([(2 : ℝ), 358].length : ℝ))) = Real.cos (radiansOf 2) := by
    simp [cos_radians_358]
  simp only [circularMeanHue]
  rw [e1, e2, atan2_zero_of_nonneg _ cos_radians_2_pos.le]
  have hdeg : degreesOf 0 = 0 := by
    unfold degreesOf
    simp
  rw [hdeg]
  unfold fmod360
  norm_num

/-- C5 counterexample: with three identical pixels the filtered strategy
passes `n_clusters = min(5, 3) = 3` although the distinct count is 1
(the claim demands `min(5, 1) = 1`); and the plain strategy passes
`n_clusters = 4` unconditionally although the sample has only 2
distinct values (the claim demands `min(4, 2) = 2`). -/
theorem claim_C5_counterexample :
    nClustersImproved [(100, 150, 200), (100, 150, 200), (100, 150, 200)] = 3 ∧
    min 5 (distinctCount [(100, 150, 200), (100, 150, 200), (100, 150, 200)]) = 1 ∧
    (3 : ℕ) ≠ 1 ∧
    nClustersPlain [(10, 20, 30), (40, 50, 60)] = 4 ∧
    min 4 (distinctCount [(10, 20, 30), (40, 50, 60)]) = 2 ∧
    (4 : ℕ) ≠ 2 := by
  decide

/-- C5 amended: the plain strategy passes the configured `k = 4` with no
adjustment; the filtered and HSV strategies pass
`min(5, sample_row_count)` where the count is the number of rows of the
post-filter sample (duplicates included), not the number of distinct
values; for a non-empty input this `k` is at least 1 and at most the
row count of the clustered sample, so clustering stays valid. -/
theorem claim_C5_amended :
    (∀ px : List RGB, nClustersPlain px = 4) ∧
    (∀ px : List RGB, nClustersImproved px = min 5 (extremeFilterStage px).length) ∧
    (∀ px : List RGB, nClustersHsv px = min 5 ((hsvPrep px).2).length) ∧
    (∀ px : List RGB, px ≠ [] →
      (1 ≤ nClustersImproved px ∧
        nClustersImproved px ≤ (extremeFilterStage px).length) ∧
      (1 ≤ nClustersHsv px ∧ nClustersHsv px ≤ ((hsvPrep px).2).length)) := by
  refine ⟨fun _ => rfl, fun _ => rfl, fun _ => rfl, ?_⟩
  intro px h
  have l1 : 0 < (extremeFilterStage px).length :=
    List.length_pos.mpr (extremeFilterStage_ne_nil px h)
  have l2 : 0 < ((hsvPrep px).2).length :=
    List.length_pos.mpr (hsvPrep_snd_ne_nil px h)
  unfold nClustersImproved nClustersHsv
  omega

/-- C5 witness: validity bounds at a one-pixel sample. -/
theorem claim_C5_witness :
    (1 ≤ nClustersImproved [(1, 2, 3)] ∧
      nClustersImproved [(1, 2, 3)] ≤ (extremeFilterStage [(1, 2, 3)]).length) ∧
    (1 ≤ nClustersHsv [(1, 2, 3)] ∧
      nClustersHsv [(1, 2, 3)] ≤ ((hsvPrep [(1, 2, 3)]).2).length) :=
  claim_C5_amended.2.2.2 [(1, 2, 3)] (by decide)

/-- C6 counterexample: the pixel `(200,170,170)` has saturation exactly
15 and belongs to `redSample`, yet the HSV preparation drops it while
keeping the nine vivid pixels — a pixel at exactly the threshold is NOT
retained. -/
theorem claim_C6_counterexample :
    (rgbToHsvScaled (200, 170, 170)).2.1 = 15 ∧
    (200, 170, 170) ∈ redSample ∧
    ((200, 170, 170) : RGB) ∉ (hsvPrep redSample).1 ∧
    (hsvPrep redSample).1 ≠ [] := by
  refine ⟨sat_p15, by decide, ?_, ?_⟩
  · rw [hsvPrep_red1]; decide
  · rw [hsvPrep_red1]; decide

/-- C6 amended: after the color-space transform the low-saturation mask
retains exactly the pixels whose saturation strictly exceeds 15 on the
0-100 scale (a pixel with saturation exactly 15 is dropped), and the
filtered pair is kept only when the retained set strictly exceeds 10%
of the input. -/
theorem claim_C6_amended :
    (∀ f : List RGB,
      ((f.zip (f.map rgbToHsvScaled)).filter
          (fun q => decide (15 < q.2.2.1))).map Prod.fst = f.filter satKeep) ∧
    (∀ p : RGB, satKeep p = true ↔ 15 < (rgbToHsvScaled p).2.1) ∧
    (∀ p : RGB, (rgbToHsvScaled p).2.1 = 15 → satKeep p = false) ∧
    (∀ f : List RGB, f.length < 10 * (f.filter satKeep).length →
      (satMaskStage f).1 = f.filter satKeep) ∧
    (∀ f : List RGB, 10 * (f.filter satKeep).length ≤ f.length →
      satMaskStage f = (f, f.map rgbToHsvScaled)) := by
  refine ⟨?_, ?_, ?_, ?_, satMaskStage_fallback⟩
  · intro f
    rw [satMask_kept_eq, map_pair_fst]
  · intro p
    simp [satKeep]
  · intro p h
    simp [satKeep, h]
  · intro f h
    rw [satMaskStage_keep f h]

/-- C6 witness: the threshold pixel is dropped and the mask keeps the
filtered set on `redSample`. -/
theorem claim_C6_witness :
    satKeep (200, 170, 170) = false ∧
    (satMaskStage redSample).1 = redSample.filter satKeep :=
  ⟨claim_C6_amended.2.2.1 (200, 170, 170) sat_p15,
   claim_C6_amended.2.2.2.1 redSample (by rw [redFilter_eq]; decide)⟩

/-- C7 counterexample: a cache-store I/O failure raised during per-URL
processing is caught by the catch-all handler and converted to an
absent result; the batch loop still yields one row per URL and
completes — it does not propagate and fail the run. -/
theorem claim_C7_counterexample :
    catchPerUrl (Except.error FailureKind.cacheStoreError) = none ∧
    runBatchLoop (fun _ => Except.error FailureKind.cacheStoreError) ["u1", "u2"] =
      [("u1", none), ("u2", none)] :=
  ⟨rfl, rfl⟩

/-- C7 amended: EVERY failure kind raised inside per-URL processing —
network, decode, degenerate clustering, and also cache-store I/O errors
(the cache directory creation and the cache-file write run inside the
same `try`) — is caught at per-URL granularity and converted to an
absent result; successes pass through, and the loop always yields one
entry per URL, so no failure aborts the batch. -/
theorem claim_C7_amended :
    (∀ e : FailureKind, catchPerUrl (Except.error e) = none) ∧
    (∀ c : String, catchPerUrl (Except.ok c) = some c) ∧
    (∀ (outcome : String → Except FailureKind String) (urls : List String),
      (runBatchLoop outcome urls).length = urls.length) ∧
    (∀ (outcome : String → Except FailureKind String) (urls : List String)
      (u : String), u ∈ urls →
      (u, catchPerUrl (outcome u)) ∈ runBatchLoop outcome urls) := by
  refine ⟨fun _ => rfl, fun _ => rfl, ?_, ?_⟩
  · intro outcome urls
    unfold runBatchLoop
    exact List.length_map _ _
  · intro outcome urls u hu
    unfold runBatchLoop
    exact List.mem_map.mpr ⟨u, hu, rfl⟩

/-- C7 witness: the loop entry for a URL whose processing raised a
cache-store error. -/
theorem claim_C7_witness :
    (("u1" : String), (none : Option String)) ∈
      runBatchLoop (fun _ => Except.error FailureKind.cacheStoreError) ["u1"] :=
  claim_C7_amended.2.2.2 _ ["u1"] "u1" (by decide)

/-- C8: fetching is idempotent per URL — when the cache file for a URL
exists, `download_image` performs zero network calls, returns the
stored bytes, and leaves the cache untouched; a second invocation after
any first one performs zero network calls and returns the same bytes
from the same cache; existing cache entries are never rewritten,
mutated, or deleted; and the cache filename is the hex digest of the
URL (via the abstracted SHA-256 `hashHex`) plus the fixed `.img` suffix
under the fixed cache directory. -/
theorem claim_C8_cache (hashHex : String → String) (net : String → List ℕ)
    (cache : List (String × List ℕ)) (url : String) :
    (∀ b, alookup cache (filename_for_url hashHex url) = some b →
      download_image hashHex net cache url = ⟨cache, b, 0⟩) ∧
    (download_image hashHex net (download_image hashHex net cache url).cache url =
      ⟨(download_image hashHex net cache url).cache,
        (download_image hashHex net cache url).bytes, 0⟩) ∧
    (∀ k b, alookup cache k = some b →
      alookup (download_image hashHex net cache url).cache k = some b) ∧
    filename_for_url hashHex url = CACHE_DIR ++ "/" ++ hashHex url ++ ".img" := by
  refine ⟨?_, ?_, ?_, rfl⟩
  · intro b hb
    simp only [download_image]
    rw [hb]
  · simp only [download_image]
    cases hl : alookup cache (filename_for_url hashHex url) with
    | some b => simp [hl]
    | none => simp [hl, alookup]
  · intro k b hb
    simp only [download_image]
    cases hl : alookup cache (filename_for_url hashHex url) with
    | some c =>
      simp only [hl]
      exact hb
    | none =>
      have hk : k ≠ filename_for_url hashHex url := by
        intro hkk
        rw [hkk, hl] at hb
        exact Option.noConfusion hb
      simp only [hl, alookup]
      rw [if_neg hk]
      exact hb

/-- C8 witness: a cache hit at a concrete pre-populated cache. -/
theorem claim_C8_witness :
    download_image (fun _ => "k") (fun _ => [7])
      [(filename_for_url (fun _ => "k") "u", [9])] "u" =
      ⟨[(filename_for_url (fun _ => "k") "u", [9])], [9], 0⟩ :=
  (claim_C8_cache (fun _ => "k") (fun _ => [7])
    [(filename_for_url (fun _ => "k") "u", [9])] "u").1 [9] (by decide)

/-- C9: for every input table the batch output has exactly one row per
input row; each output row repeats the input row's columns unchanged
and adds the one `dominant_color` cell, which is the extraction result
of the row's URL — empty for missing URLs and for URLs whose extraction
failed — so any two rows sharing a URL value receive the identical
color. -/
theorem claim_C9_schema (ext : String → Option String) (rows : List Row) :
    (mainBatch ext rows).length = rows.length ∧
    (∀ i : ℕ, (mainBatch ext rows)[i]? =
      (rows[i]?).map (fun r => ⟨r.crop, r.url, r.url.bind ext⟩)) ∧
    (∀ (i : ℕ) (r : Row), rows[i]? = some r → r.url = none →
      (mainBatch ext rows)[i]? = some ⟨r.crop, none, none⟩) ∧
    (∀ (i : ℕ) (r : Row) (u : String), rows[i]? = some r → r.url = some u →
      ext u = none →
      (mainBatch ext rows)[i]? = some ⟨r.crop, some u, none⟩) ∧
    (∀ (i j : ℕ) (ri rj : Row), rows[i]? = some ri → rows[j]? = some rj →
      ri.url = rj.url →
      ((mainBatch ext rows)[i]?).map RowOut.color =
        ((mainBatch ext rows)[j]?).map RowOut.color) := by
  have hget : ∀ i : ℕ, (mainBatch ext rows)[i]? =
      (rows[i]?).map (fun r => ⟨r.crop, r.url, r.url.bind ext⟩) := by
    intro i
    unfold mainBatch
    rw [List.getElem?_map]
    cases h : rows[i]? with
    | none => rfl
    | some r =>
      have hr : r ∈ rows := by
        obtain ⟨hlt, rfl⟩ := List.getElem?_eq_some.mp h
        exact List.getElem_mem hlt
      simp only [Option.map_some']
      rw [mainBatch_row ext rows r hr]
  refine ⟨?_, hget, ?_, ?_, ?_⟩
  · unfold mainBatch
    exact List.length_map _ _
  · intro i r hi hu
    rw [hget i, hi]
    simp [hu]
  · intro i r u hi hu hext
    rw [hget i, hi]
    simp [hu, hext]
  · intro i j ri rj hi hj huv
    rw [hget i, hget j, hi, hj]
    simp [huv]

/-- C9 witness: a concrete four-row table with a missing URL, a failing
URL and a duplicated URL. -/
theorem claim_C9_witness :
    (mainBatch (fun u => if u = "a" then some "#ff0000" else none)
        [⟨"r1", some "a"⟩, ⟨"r2", none⟩, ⟨"r3", some "b"⟩, ⟨"r4", some "a"⟩]).length = 4 ∧
    (mainBatch (fun u => if u = "a" then some "#ff0000" else none)
        [⟨"r1", some "a"⟩, ⟨"r2", none⟩, ⟨"r3", some "b"⟩, ⟨"r4", some "a"⟩])[1]? =
      some ⟨"r2", none, none⟩ ∧
    (mainBatch (fun u => if u = "a" then some "#ff0000" else none)
        [⟨"r1", some "a"⟩, ⟨"r2", none⟩, ⟨"r3", some "b"⟩, ⟨"r4", some "a"⟩])[2]? =
      some ⟨"r3", some "b", none⟩ :=
  ⟨(claim_C9_schema _ _).1,
   (claim_C9_schema _ _).2.2.1 1 ⟨"r2", none⟩ (by decide) rfl,
   (claim_C9_schema _ _).2.2.2.1 2 ⟨"r3", some "b"⟩ "b" (by decide) rfl (by decide)⟩

/-- C10: from the RGB→HSV conversion through clustering, the prepared
`hsv_pixels` array is row-for-row the conversion of the prepared
`filtered_pixels` array (mask and fallback are applied in lockstep), the
two arrays have equal length, and selecting any cluster's rows by a
label vector yields, on the HSV side, exactly the conversions of the
RGB rows assigned to that cluster. -/
theorem claim_C10_lockstep :
    (∀ px : List RGB, (hsvPrep px).2 = ((hsvPrep px).1).map rgbToHsvScaled) ∧
    (∀ px : List RGB, ((hsvPrep px).2).length = ((hsvPrep px).1).length) ∧
    (∀ (px : List RGB) (labels : List ℕ) (lab : ℕ),
      clusterSelect labels ((hsvPrep px).2) lab =
        (clusterSelect labels ((hsvPrep px).1) lab).map rgbToHsvScaled) := by
  refine ⟨hsvPrep_snd, ?_, ?_⟩
  · intro px
    rw [hsvPrep_snd]
    exact List.length_map _ _
  · intro px labels lab
    rw [hsvPrep_snd]
    exact clusterSelect_map rgbToHsvScaled lab labels ((hsvPrep px).1)

end CropColors
